import Mathlib

/-!
# Task service: a shallow embedding of `task.go`, `error.go` and `main.go`

The in-memory task service keeps a `map[string]*Task` and serves four
handlers (`List`, `Create`, `Update`, `Delete`) behind an error-translating
middleware.  The Go map is embedded as an association list with distinct keys
(`AList`), handlers as state-passing functions on the controller and on the
request context, and the three external collaborators (the JSON binder, the
id generator, the HTTP status constants) as explicit inputs.
-/

namespace Assignment

/-! ## error.go -/

/-- The `Error` struct of `error.go`: an HTTP status and a message. -/
structure Error where
  status : Int
  message : String
  deriving DecidableEq, Repr

/-- The constructor `NewError(status, message)`. -/
def NewError (status : Int) (message : String) : Error :=
  { status := status, message := message }

/-- The method `(*Error).Code()`. -/
def Error.Code (m : Error) : Int := m.status

/-- The method `(*Error).Error()`. -/
def Error.Error (m : Error) : String := m.message

/-- A value of Go's `error` interface: either the repository's own `*Error`
or an error of some other dynamic type (only its text is kept). -/
inductive GoError where
  | custom (e : Error)
  | other (text : String)
  deriving DecidableEq, Repr

/-! ## net/http status constants used by the handlers -/

def StatusOK : Int := 200
def StatusNoContent : Int := 204
def StatusBadRequest : Int := 400
def StatusNotFound : Int := 404
def StatusInternalServerError : Int := 500

/-! ## task.go: data model -/

/-- The type `TaskStatus` is a Go `int`. -/
abbrev TaskStatus := Int

def Incompleted : TaskStatus := 0
def Completed : TaskStatus := 1

def ErrParseRequestPayload : Error := NewError StatusBadRequest "decode request payload failed"
def ErrTaskNotFound : Error := NewError StatusNotFound "task not found"
def ErrEmptyTaskName : Error := NewError StatusBadRequest "empty task name"
def ErrInvalidTaskStatus : Error := NewError StatusBadRequest "invalid task status"

/-- The `Task` struct; all three fields carry a `json` tag, so all three are
read from a request body by the binder and written to a response. -/
structure Task where
  ID : String
  Name : String
  Status : TaskStatus
  deriving DecidableEq, Repr

/-- The zero value of `Task`, what `var task Task` declares. -/
def Task.zero : Task := { ID := "", Name := "", Status := 0 }

/-- The in-memory storage `map[string]*Task`: finitely many entries, at most
one per key.  The handlers only add, replace and remove map entries and never
write through a stored pointer, so each pointer is embedded as the task it
points to. -/
abbrev Database := AList (fun _ : String => Task)

/-- The struct `TaskController`, whose only field is the storage. -/
structure TaskController where
  database : Database

/-! ## The request context (the part of `gin.Context` the handlers touch) -/

/-- A request body as the JSON binder reads it for a `Task` target.
`malformed` is every body the binder rejects (no body, not JSON, a JSON value
or field of the wrong type).  `object` is a body the binder can read: for each
of the tagged fields `id`, `name`, `status`, the value the body supplies, or
`none` when the body supplies none (the key is missing or `null`); the status
is the integer literal written in the body. -/
inductive Body where
  | malformed
  | object (id : Option String) (name : Option String) (status : Option Int)
  deriving DecidableEq, Repr

/-- What a handler writes with `c.JSON(code, obj)`. -/
inductive JSONValue where
  | tasks (ts : List Task)
  | id (s : String)
  | error (msg : String)
  | null
  deriving DecidableEq, Repr

/-- A written response: status code and JSON object. -/
structure Response where
  code : Int
  obj : JSONValue
  deriving DecidableEq, Repr

/-- The request context: the `id` path parameter (`c.Param("id")`, empty for a
route without one), the request body, the errors attached with `c.Error`,
and the response written with `c.JSON`. -/
structure Context where
  param : String
  body : Body
  Errors : List GoError
  response : Option Response
  deriving DecidableEq, Repr

/-- A fresh context for a request. -/
def Context.new (param : String) (body : Body) : Context :=
  { param := param, body := body, Errors := [], response := none }

/-- The call `c.Error(err)`: attach an error to the context. -/
def Context.Error (c : Context) (err : GoError) : Context :=
  { c with Errors := c.Errors ++ [err] }

/-- The call `c.JSON(code, obj)`: write the response.  This is what the call
does on a context on which no response has been written yet, with a positive
status code; every handler and the middleware call it that way (a handler
either attaches an error or writes a response, never both). -/
def Context.JSON (c : Context) (code : Int) (obj : JSONValue) : Context :=
  { c with response := some { code := code, obj := obj } }

/-- The call `c.ShouldBindJSON(&task)`: decode the body into `task`.  A field the body
supplies overwrites the target's field, a field it does not supply leaves it
as it was; a status literal that does not fit Go's 64-bit `int` is a decode
error, like every malformed body. -/
def ShouldBindJSON (c : Context) (task : Task) : Option Task :=
  match c.body with
  | .malformed => none
  | .object id name status =>
    match status with
    | some s =>
      if s < -(2 : Int) ^ 63 ∨ (2 : Int) ^ 63 ≤ s then none
      else some { ID := id.getD task.ID, Name := name.getD task.Name, Status := s }
    | none => some { ID := id.getD task.ID, Name := name.getD task.Name, Status := task.Status }

/-! ## task.go: validation -/

deriving instance DecidableEq for Except

/-- The method `validateTask`: decode, then check the name, then check the status. -/
def validateTask (c : Context) : Except GoError Task :=
  match ShouldBindJSON c Task.zero with
  | none => .error (.custom ErrParseRequestPayload)
  | some task =>
    if task.Name.utf8ByteSize = 0 then
      .error (.custom ErrEmptyTaskName)
    else if task.Status ≠ 0 ∧ task.Status ≠ 1 then
      .error (.custom ErrInvalidTaskStatus)
    else
      .ok task

/-! ## task.go: handlers -/

/-- The handler `List`: copy every stored task into a slice and answer 200 with it. -/
def TaskController.List (t : TaskController) (c : Context) : TaskController × Context :=
  let tasks := t.database.entries.map (fun e => e.2)
  (t, c.JSON StatusOK (.tasks tasks))

/-- The handler `Create`: validate, give the task the generated id (`uuid` is what
`uuid.New().String()` returns for this request), store it under that id and
answer 200 with the id. -/
def TaskController.Create (t : TaskController) (uuid : String) (c : Context) :
    TaskController × Context :=
  match validateTask c with
  | .error err => (t, c.Error err)
  | .ok task =>
    let task := { task with ID := uuid }
    ({ database := t.database.insert task.ID task }, c.JSON StatusOK (.id task.ID))

/-- The handler `Update`: look the path id up first, then validate, then overwrite the
entry under the path id and answer 204. -/
def TaskController.Update (t : TaskController) (c : Context) : TaskController × Context :=
  let id := c.param
  match t.database.lookup id with
  | none => (t, c.Error (.custom ErrTaskNotFound))
  | some _ =>
    match validateTask c with
    | .error err => (t, c.Error err)
    | .ok task =>
      let task := { task with ID := id }
      ({ database := t.database.insert task.ID task }, c.JSON StatusNoContent .null)

/-- The handler `Delete`: remove the entry under the path id when there is one; answer 204
either way. -/
def TaskController.Delete (t : TaskController) (c : Context) : TaskController × Context :=
  let id := c.param
  let t := match t.database.lookup id with
    | some _ => { database := t.database.erase id }
    | none => t
  (t, c.JSON StatusNoContent .null)

/-! ## main.go -/

/-- The middleware `ErrorHandlingMiddleware`: run the handler (`c.Next()`); if it attached no
error, leave the context alone; otherwise answer with the first error's own
code and message when it is an `*Error`, and with 500 "unknown error" when it
is not. -/
def ErrorHandlingMiddleware (next : Context → TaskController × Context) (c : Context) :
    TaskController × Context :=
  match next c with
  | (t, c) =>
    match c.Errors with
    | [] => (t, c)
    | first :: _ =>
      match first with
      | .custom custom => (t, c.JSON custom.Code (.error custom.Error))
      | .other _ => (t, c.JSON StatusInternalServerError (.error "unknown error"))

/-- The four routes registered by `setupRouter`. -/
inductive Route where
  | getTasks
  | postTasks
  | putTasksId
  | deleteTasksId
  deriving DecidableEq, Repr

/-- An incoming request: its route, the value of the `:id` path segment and
its body. -/
structure Request where
  route : Route
  id : String
  body : Body
  deriving DecidableEq, Repr

/-- The router of `setupRouter` followed by `ServeHTTP`: dispatch a request to its handler
under the middleware.  `uuid` is the id the generator hands out during this
request. -/
def ServeHTTP (t : TaskController) (uuid : String) (req : Request) : TaskController × Context :=
  let c := Context.new req.id req.body
  match req.route with
  | .getTasks => ErrorHandlingMiddleware t.List c
  | .postTasks => ErrorHandlingMiddleware (t.Create uuid) c
  | .putTasksId => ErrorHandlingMiddleware t.Update c
  | .deleteTasksId => ErrorHandlingMiddleware t.Delete c

/-- The controller `main` starts with: an empty map. -/
def TaskController.init : TaskController := { database := ∅ }

/-- The controller states the running service can be in. -/
inductive Reachable : TaskController → Prop
  | init : Reachable TaskController.init
  | step (t : TaskController) (uuid : String) (req : Request) :
      Reachable t → Reachable (ServeHTTP t uuid req).1

/-! ## Properties of stores -/

/-- Every stored task has a non-empty name and a status of 0 or 1. -/
def StoreValid (t : TaskController) : Prop :=
  ∀ e ∈ t.database.entries, e.2.Name ≠ "" ∧ (e.2.Status = Incompleted ∨ e.2.Status = Completed)

instance (t : TaskController) : Decidable (StoreValid t) := by
  unfold StoreValid; infer_instance

/-- Every task is stored under the key that is its own `ID`. -/
def KeysAgree (t : TaskController) : Prop :=
  ∀ e ∈ t.database.entries, e.2.ID = e.1

instance (t : TaskController) : Decidable (KeysAgree t) := by
  unfold KeysAgree; infer_instance

/-- The store with the given tasks, each under its own `ID`, added one after
the other (what the test suite sets up before each case). -/
def storeOf (ts : List Task) : TaskController :=
  { database := ts.foldl (fun (db : Database) task => db.insert task.ID task) ∅ }

/-- The tasks the service answers a `GET /tasks` request with. -/
def listed (t : TaskController) : List Task :=
  match (ServeHTTP t "" ⟨.getTasks, "", .malformed⟩).2.response with
  | some ⟨_, .tasks ts⟩ => ts
  | _ => []

/-- The number of stored tasks, `len(t.database)`. -/
def len (db : Database) : Nat := db.entries.length

/-- What a handler leaves behind on a fresh context: either one `*Error`
attached and the store untouched, or a response written and no error. -/
def Outcome (t : TaskController) (c : Context) (r : TaskController × Context) : Prop :=
  (∃ e : Error, r = (t, c.Error (.custom e))) ∨
  (∃ (t' : TaskController) (code : Int) (obj : JSONValue), r = (t', c.JSON code obj))

/-! ## Basic facts -/

/-- A Go string has length zero exactly when it is the empty string. -/
theorem utf8ByteSize_eq_zero_iff (s : String) : s.utf8ByteSize = 0 ↔ s = "" := by
  rcases s with ⟨cs⟩
  cases cs with
  | nil => exact ⟨fun _ => rfl, fun _ => rfl⟩
  | cons c cs =>
    constructor
    · intro h
      have hpos := Char.utf8Size_pos c
      simp only [String.utf8ByteSize_mk, String.utf8Len_cons] at h
      omega
    · intro h
      exact absurd h (by simp [String.ext_iff])

/-- What `validateTask` returns, by cases on the decoded body. -/
theorem validateTask_eq (c : Context) :
    validateTask c =
      match ShouldBindJSON c Task.zero with
      | none => .error (.custom ErrParseRequestPayload)
      | some task =>
        if task.Name = "" then .error (.custom ErrEmptyTaskName)
        else if task.Status ≠ 0 ∧ task.Status ≠ 1 then .error (.custom ErrInvalidTaskStatus)
        else .ok task := by
  unfold validateTask
  cases ShouldBindJSON c Task.zero with
  | none => rfl
  | some task => simp only [utf8ByteSize_eq_zero_iff]

/-- Success of `validateTask`, in terms of the decoded body. -/
theorem validateTask_ok_iff (c : Context) (task : Task) :
    validateTask c = .ok task ↔
      ShouldBindJSON c Task.zero = some task ∧ task.Name ≠ "" ∧
        (task.Status = 0 ∨ task.Status = 1) := by
  rw [validateTask_eq]
  cases h : ShouldBindJSON c Task.zero with
  | none => simp
  | some d =>
    have key : d.Status = 0 ∨ d.Status = 1 ↔ ¬ (d.Status ≠ 0 ∧ d.Status ≠ 1) := by
      constructor
      · rintro (h0 | h1) ⟨n0, n1⟩
        · exact n0 h0
        · exact n1 h1
      · intro hneg
        by_cases h0 : d.Status = 0
        · exact Or.inl h0
        · by_cases h1 : d.Status = 1
          · exact Or.inr h1
          · exact absurd ⟨h0, h1⟩ hneg
    simp only [Option.some.injEq]
    split_ifs with hn hs
    · constructor
      · intro h; cases h
      · rintro ⟨rfl, h1, _⟩; exact absurd hn h1
    · constructor
      · intro h; cases h
      · rintro ⟨rfl, _, h2⟩; exact absurd hs (key.mp h2)
    · constructor
      · intro h
        cases h
        exact ⟨rfl, hn, key.mpr hs⟩
      · rintro ⟨rfl, _, _⟩; rfl

/-- The handler `Update` on a path id that is not a key. -/
theorem Update_of_not_mem (t : TaskController) (c : Context) (h : c.param ∉ t.database) :
    t.Update c = (t, c.Error (.custom ErrTaskNotFound)) := by
  have hl : t.database.lookup c.param = none := AList.lookup_eq_none.mpr h
  simp only [TaskController.Update, hl]

/-- The handler `Update` on a path id that is a key. -/
theorem Update_of_mem (t : TaskController) (c : Context) (h : c.param ∈ t.database) :
    t.Update c =
      match validateTask c with
      | .error err => (t, c.Error err)
      | .ok task =>
        ({ database := t.database.insert c.param { task with ID := c.param } },
          c.JSON StatusNoContent .null) := by
  obtain ⟨old, hold⟩ := Option.isSome_iff_exists.mp (AList.lookup_isSome.mpr h)
  simp only [TaskController.Update, hold]

/-- The handler `Create` when validation fails. -/
theorem Create_of_error (t : TaskController) (uuid : String) (c : Context) (err : GoError)
    (h : validateTask c = .error err) : t.Create uuid c = (t, c.Error err) := by
  simp only [TaskController.Create, h]

/-- The handler `Create` when validation succeeds. -/
theorem Create_of_ok (t : TaskController) (uuid : String) (c : Context) (task : Task)
    (h : validateTask c = .ok task) :
    t.Create uuid c =
      ({ database := t.database.insert uuid { task with ID := uuid } },
        c.JSON StatusOK (.id uuid)) := by
  simp only [TaskController.Create, h]

/-- The middleware after a handler that attached one `*Error` to a fresh
context. -/
theorem middleware_of_error (next : Context → TaskController × Context) (c : Context)
    (t : TaskController) (e : Error) (hc : c.Errors = [])
    (h : next c = (t, c.Error (.custom e))) :
    ErrorHandlingMiddleware next c =
      (t, (c.Error (.custom e)).JSON e.Code (.error e.Error)) := by
  simp only [ErrorHandlingMiddleware, h, Context.Error, hc, List.nil_append]

/-- The middleware after a handler that attached no error to a fresh
context. -/
theorem middleware_of_json (next : Context → TaskController × Context) (c : Context)
    (t : TaskController) (code : Int) (obj : JSONValue) (hc : c.Errors = [])
    (h : next c = (t, c.JSON code obj)) :
    ErrorHandlingMiddleware next c = (t, c.JSON code obj) := by
  simp only [ErrorHandlingMiddleware, h, Context.JSON, hc]

/-- Every error `validateTask` can return is one of the three validation
errors. -/
theorem validateTask_error_cases (c : Context) (err : GoError)
    (h : validateTask c = .error err) :
    err = .custom ErrParseRequestPayload ∨ err = .custom ErrEmptyTaskName ∨
      err = .custom ErrInvalidTaskStatus := by
  rw [validateTask_eq] at h
  cases hd : ShouldBindJSON c Task.zero with
  | none =>
    rw [hd] at h
    cases h
    exact Or.inl rfl
  | some d =>
    rw [hd] at h
    simp only at h
    split_ifs at h
    · cases h; exact Or.inr (Or.inl rfl)
    · cases h; exact Or.inr (Or.inr rfl)

/-! ## C1: an unknown id is reported before the body is looked at -/

/-- C1: for every store, every id that is not a key of it and every request
body, `Update` attaches exactly `ErrTaskNotFound`, the service answers 404
with the message "task not found", and none of the three validation errors is
attached: the existence check runs before the body is validated. -/
theorem update_unknown_id_not_found (t : TaskController) (uuid id : String) (body : Body)
    (h : id ∉ t.database) :
    (t.Update (Context.new id body)).2.Errors = [.custom ErrTaskNotFound] ∧
    (ServeHTTP t uuid ⟨.putTasksId, id, body⟩).2.Errors = [.custom ErrTaskNotFound] ∧
    (ServeHTTP t uuid ⟨.putTasksId, id, body⟩).2.response
      = some ⟨404, .error "task not found"⟩ ∧
    GoError.custom ErrParseRequestPayload ∉ (ServeHTTP t uuid ⟨.putTasksId, id, body⟩).2.Errors ∧
    GoError.custom ErrEmptyTaskName ∉ (ServeHTTP t uuid ⟨.putTasksId, id, body⟩).2.Errors ∧
    GoError.custom ErrInvalidTaskStatus ∉ (ServeHTTP t uuid ⟨.putTasksId, id, body⟩).2.Errors := by
  have hu : t.Update (Context.new id body)
      = (t, (Context.new id body).Error (.custom ErrTaskNotFound)) :=
    Update_of_not_mem t (Context.new id body) h
  have hs : ServeHTTP t uuid ⟨.putTasksId, id, body⟩
      = (t, ((Context.new id body).Error (.custom ErrTaskNotFound)).JSON
          ErrTaskNotFound.Code (.error ErrTaskNotFound.Error)) :=
    middleware_of_error t.Update (Context.new id body) t ErrTaskNotFound rfl hu
  rw [hs, hu]
  refine ⟨rfl, rfl, rfl, ?_, ?_, ?_⟩ <;>
    simp only [Context.JSON, Context.Error, Context.new, List.nil_append, List.mem_singleton] <;>
    decide

/-- C1 at the store holding only "A", for the path id "B" and the body
`{"name": "", "status": 9}`. -/
theorem update_unknown_id_not_found_witness :
    "B" ∉ (storeOf [⟨"A", "old", 0⟩]).database ∧
    (ServeHTTP (storeOf [⟨"A", "old", 0⟩]) "U"
        ⟨.putTasksId, "B", .object none (some "") (some 9)⟩).2.response
      = some ⟨404, .error "task not found"⟩ :=
  ⟨by decide,
   (update_unknown_id_not_found (storeOf [⟨"A", "old", 0⟩]) "U" "B"
      (.object none (some "") (some 9)) (by decide)).2.2.1⟩

/-! ## C2: the order of the three checks -/

/-- C2: `validateTask` checks decode, then name, then status, and reports the
first check that fails: a body that does not decode gives
`ErrParseRequestPayload`; a body that decodes with an empty name gives
`ErrEmptyTaskName` whatever its status; a body that decodes with a non-empty
name and a status other than 0 and 1 gives `ErrInvalidTaskStatus`, and
`ErrInvalidTaskStatus` is given in no other case. -/
theorem validateTask_reports_first_failure (c : Context) :
    (ShouldBindJSON c Task.zero = none →
      validateTask c = .error (.custom ErrParseRequestPayload)) ∧
    (∀ task, ShouldBindJSON c Task.zero = some task → task.Name = "" →
      validateTask c = .error (.custom ErrEmptyTaskName)) ∧
    (∀ task, ShouldBindJSON c Task.zero = some task → task.Name ≠ "" →
      task.Status ≠ 0 → task.Status ≠ 1 →
      validateTask c = .error (.custom ErrInvalidTaskStatus)) ∧
    (validateTask c = .error (.custom ErrInvalidTaskStatus) →
      ∃ task, ShouldBindJSON c Task.zero = some task ∧ task.Name ≠ "" ∧
        task.Status ≠ 0 ∧ task.Status ≠ 1) := by
  rw [validateTask_eq]
  refine ⟨?_, ?_, ?_, ?_⟩
  · intro h
    rw [h]
  · intro task h hn
    rw [h]
    simp only [hn, if_true]
  · intro task h hn h0 h1
    rw [h]
    simp only
    rw [if_neg hn, if_pos ⟨h0, h1⟩]
  · intro h
    cases hd : ShouldBindJSON c Task.zero with
    | none =>
      rw [hd] at h
      exact absurd h (by decide)
    | some d =>
      rw [hd] at h
      simp only at h
      split_ifs at h with hn hs
      · exact absurd h (by decide)
      · exact ⟨d, rfl, hn, hs.1, hs.2⟩

/-- C2 at the body `{"name": "", "status": 9}`: the empty name is reported,
not the status. -/
theorem validateTask_reports_first_failure_witness :
    validateTask (Context.new "" (.object none (some "") (some 9)))
      = .error (.custom ErrEmptyTaskName) :=
  (validateTask_reports_first_failure (Context.new "" (.object none (some "") (some 9)))).2.1
    ⟨"", "", 9⟩ (by decide) (by decide)

/-! ## C3: a failed request leaves the store as it was -/

/-- Each of the four handlers ends in one of the two outcomes. -/
theorem handler_outcome (t : TaskController) (uuid : String) (c : Context) :
    Outcome t c (t.List c) ∧ Outcome t c (t.Create uuid c) ∧
    Outcome t c (t.Update c) ∧ Outcome t c (t.Delete c) := by
  refine ⟨Or.inr ⟨t, _, _, rfl⟩, ?_, ?_, Or.inr ⟨_, _, _, rfl⟩⟩
  · cases hv : validateTask c with
    | error err =>
      rcases validateTask_error_cases c err hv with rfl | rfl | rfl <;>
        exact Or.inl ⟨_, Create_of_error t uuid c _ hv⟩
    | ok task => exact Or.inr ⟨_, _, _, Create_of_ok t uuid c task hv⟩
  · by_cases hm : c.param ∈ t.database
    · rw [Update_of_mem t c hm]
      cases hv : validateTask c with
      | error err =>
        rcases validateTask_error_cases c err hv with rfl | rfl | rfl <;>
          exact Or.inl ⟨_, rfl⟩
      | ok task => exact Or.inr ⟨_, _, _, rfl⟩
    · exact Or.inl ⟨_, Update_of_not_mem t c hm⟩

/-- Under the middleware, a handler that attached an error leaves the store
untouched. -/
theorem middleware_store_of_errors (next : Context → TaskController × Context)
    (t : TaskController) (c : Context) (hc : c.Errors = []) (ho : Outcome t c (next c))
    (he : (ErrorHandlingMiddleware next c).2.Errors ≠ []) :
    (ErrorHandlingMiddleware next c).1 = t := by
  rcases ho with ⟨e, h⟩ | ⟨t', code, obj, h⟩
  · rw [middleware_of_error next c t e hc h]
  · rw [middleware_of_json next c t' code obj hc h] at he
    exact absurd hc he

/-- C3: a request that fails does not change the store.  For every store and
every request, if serving it attaches an error then the controller afterwards
equals the controller before; and this is the case when `Create` fails
validation, when `Update` is given an id that is not a key, and when `Update`
fails validation. -/
theorem failed_request_keeps_store (t : TaskController) (uuid : String) (req : Request) :
    ((ServeHTTP t uuid req).2.Errors ≠ [] → (ServeHTTP t uuid req).1 = t) ∧
    (∀ err, req.route = .postTasks →
      validateTask (Context.new req.id req.body) = .error err →
      (ServeHTTP t uuid req).2.Errors = [err] ∧ (ServeHTTP t uuid req).1 = t ∧
        (t.Create uuid (Context.new req.id req.body)).1 = t) ∧
    (req.route = .putTasksId → req.id ∉ t.database →
      (ServeHTTP t uuid req).2.Errors = [.custom ErrTaskNotFound] ∧
        (ServeHTTP t uuid req).1 = t ∧ (t.Update (Context.new req.id req.body)).1 = t) ∧
    (∀ err, req.route = .putTasksId → req.id ∈ t.database →
      validateTask (Context.new req.id req.body) = .error err →
      (ServeHTTP t uuid req).2.Errors = [err] ∧ (ServeHTTP t uuid req).1 = t ∧
        (t.Update (Context.new req.id req.body)).1 = t) := by
  obtain ⟨route, id, body⟩ := req
  have ho := handler_outcome t uuid (Context.new id body)
  refine ⟨?_, ?_, ?_, ?_⟩
  · intro he
    cases route
    · exact middleware_store_of_errors _ t _ rfl ho.1 he
    · exact middleware_store_of_errors _ t _ rfl ho.2.1 he
    · exact middleware_store_of_errors _ t _ rfl ho.2.2.1 he
    · exact middleware_store_of_errors _ t _ rfl ho.2.2.2 he
  · intro err hr hv
    simp only at hr hv
    subst hr
    have hc := Create_of_error t uuid (Context.new id body) err hv
    rcases validateTask_error_cases _ err hv with rfl | rfl | rfl <;>
      exact ⟨by simp only [ServeHTTP, middleware_of_error _ _ t _ rfl hc]; rfl,
             by simp only [ServeHTTP, middleware_of_error _ _ t _ rfl hc],
             by rw [hc]⟩
  · intro hr hm
    simp only at hr hm
    subst hr
    have hu := Update_of_not_mem t (Context.new id body) hm
    exact ⟨by simp only [ServeHTTP, middleware_of_error _ _ t _ rfl hu]; rfl,
           by simp only [ServeHTTP, middleware_of_error _ _ t _ rfl hu],
           by rw [hu]⟩
  · intro err hr hm hv
    simp only at hr hm hv
    subst hr
    have hu : t.Update (Context.new id body) = (t, (Context.new id body).Error err) := by
      rw [Update_of_mem t (Context.new id body) hm, hv]
    rcases validateTask_error_cases _ err hv with rfl | rfl | rfl <;>
      exact ⟨by simp only [ServeHTTP, middleware_of_error _ _ t _ rfl hu]; rfl,
             by simp only [ServeHTTP, middleware_of_error _ _ t _ rfl hu],
             by rw [hu]⟩

/-- C3 at the store holding "A": updating "A" with the body
`{"name": "x", "status": 5}` fails and the store is what it was. -/
theorem failed_request_keeps_store_witness :
    (ServeHTTP (storeOf [⟨"A", "old", 0⟩]) "U"
        ⟨.putTasksId, "A", .object none (some "x") (some 5)⟩).2.Errors
      = [.custom ErrInvalidTaskStatus] ∧
    (ServeHTTP (storeOf [⟨"A", "old", 0⟩]) "U"
        ⟨.putTasksId, "A", .object none (some "x") (some 5)⟩).1
      = storeOf [⟨"A", "old", 0⟩] :=
  have h := (failed_request_keeps_store (storeOf [⟨"A", "old", 0⟩]) "U"
    ⟨.putTasksId, "A", .object none (some "x") (some 5)⟩).2.2.2
    (.custom ErrInvalidTaskStatus) rfl (by decide) (by decide)
  ⟨h.1, h.2.1⟩

/-! ## Sizes of stores -/

theorem len_eq_keys_length (db : Database) : len db = db.keys.length := by
  simp only [len, AList.keys, List.keys, List.length_map]

theorem len_insert_of_mem (db : Database) (k : String) (v : Task) (h : k ∈ db) :
    len (db.insert k v) = len db := by
  have hk : k ∈ db.keys := AList.mem_keys.mp h
  have hpos : 0 < db.keys.length := List.length_pos_of_mem hk
  rw [len_eq_keys_length, len_eq_keys_length, AList.keys_insert, List.length_cons,
    List.length_erase_of_mem hk]
  omega

theorem len_insert_of_not_mem (db : Database) (k : String) (v : Task) (h : k ∉ db) :
    len (db.insert k v) = len db + 1 := by
  simp only [len, AList.insert_entries_of_neg h, List.length_cons]

theorem len_erase_of_mem (db : Database) (k : String) (h : k ∈ db) :
    len (db.erase k) + 1 = len db := by
  have hk : k ∈ db.keys := AList.mem_keys.mp h
  have hpos : 0 < db.keys.length := List.length_pos_of_mem hk
  rw [len_eq_keys_length, len_eq_keys_length, AList.keys_erase, List.length_erase_of_mem hk]
  omega

theorem erase_of_not_mem (db : Database) (k : String) (h : k ∉ db) : db.erase k = db := by
  apply AList.ext
  simp only [AList.erase]
  exact List.kerase_of_not_mem_keys (fun hk => h (AList.mem_keys.mpr hk))

/-! ## C4: a successful update -/

/-- C4: for every store that has the key `A` and every body that decodes to a
task with a non-empty name `n` and a status `s` of 0 or 1, `Update` under the
path id `A` answers 204 without an error, and afterwards the store holds
`{ID: A, Name: n, Status: s}` under `A`, has the same keys (and as many) as
before, and holds under every other key what it held before. -/
theorem update_replaces_task (t : TaskController) (uuid A : String) (body : Body) (task : Task)
    (hA : A ∈ t.database)
    (hd : ShouldBindJSON (Context.new A body) Task.zero = some task)
    (hn : task.Name ≠ "") (hs : task.Status = 0 ∨ task.Status = 1) :
    (ServeHTTP t uuid ⟨.putTasksId, A, body⟩).2.response = some ⟨204, .null⟩ ∧
    (ServeHTTP t uuid ⟨.putTasksId, A, body⟩).2.Errors = [] ∧
    (ServeHTTP t uuid ⟨.putTasksId, A, body⟩).1.database.lookup A
      = some { ID := A, Name := task.Name, Status := task.Status } ∧
    (∀ k, k ∈ (ServeHTTP t uuid ⟨.putTasksId, A, body⟩).1.database ↔ k ∈ t.database) ∧
    len (ServeHTTP t uuid ⟨.putTasksId, A, body⟩).1.database = len t.database ∧
    (∀ k, k ≠ A → (ServeHTTP t uuid ⟨.putTasksId, A, body⟩).1.database.lookup k
      = t.database.lookup k) := by
  have hv : validateTask (Context.new A body) = .ok task :=
    (validateTask_ok_iff _ task).mpr ⟨hd, hn, hs⟩
  have hu : t.Update (Context.new A body)
      = ({ database := t.database.insert A { task with ID := A } },
          (Context.new A body).JSON StatusNoContent .null) := by
    rw [Update_of_mem t (Context.new A body) hA, hv]
    rfl
  have hsv : ServeHTTP t uuid ⟨.putTasksId, A, body⟩
      = ({ database := t.database.insert A { task with ID := A } },
          (Context.new A body).JSON StatusNoContent .null) :=
    middleware_of_json t.Update (Context.new A body) _ _ _ rfl hu
  rw [hsv]
  refine ⟨rfl, rfl, ?_, ?_, ?_, ?_⟩
  · exact AList.lookup_insert t.database
  · intro k
    simp only [AList.mem_insert]
    constructor
    · rintro (rfl | h)
      · exact hA
      · exact h
    · exact Or.inr
  · exact len_insert_of_mem t.database A _ hA
  · intro k hk
    exact AList.lookup_insert_ne hk

/-- C4 on the store holding `{ID: "A", Name: "old", Status: 0}`, updated with
the body `{"name": "new", "status": 1}`. -/
theorem update_replaces_task_witness :
    (ServeHTTP (storeOf [⟨"A", "old", 0⟩]) "U"
        ⟨.putTasksId, "A", .object none (some "new") (some 1)⟩).1.database.lookup "A"
      = some ⟨"A", "new", 1⟩ :=
  (update_replaces_task (storeOf [⟨"A", "old", 0⟩]) "U" "A"
    (.object none (some "new") (some 1)) ⟨"", "new", 1⟩
    (by decide) (by decide) (by decide) (by decide)).2.2.1

/-! ## C5: a successful create -/

/-- The tasks listed are the stored values. -/
theorem listed_eq (t : TaskController) : listed t = t.database.entries.map (fun e => e.2) := rfl

/-- Serving `GET /tasks` answers 200 with the listed tasks, attaches no error
and keeps the store. -/
theorem ServeHTTP_getTasks (t : TaskController) (uuid id : String) (body : Body) :
    ServeHTTP t uuid ⟨.getTasks, id, body⟩
      = (t, (Context.new id body).JSON StatusOK (.tasks (listed t))) := rfl

/-- Serving `POST /tasks` with a body that validates. -/
theorem ServeHTTP_postTasks_ok (t : TaskController) (uuid id : String) (body : Body)
    (task : Task) (hv : validateTask (Context.new id body) = .ok task) :
    ServeHTTP t uuid ⟨.postTasks, id, body⟩
      = ({ database := t.database.insert uuid { task with ID := uuid } },
          (Context.new id body).JSON StatusOK (.id uuid)) :=
  middleware_of_json (t.Create uuid) (Context.new id body) _ _ _ rfl
    (Create_of_ok t uuid (Context.new id body) task hv)

/-- C5: for every store that keeps each task under the key that is its own
`ID` (the way the service keeps its store: every write is
`database[task.ID] = task`, so every reachable store is such a store), every
body that decodes to a task with a non-empty name `n` and a status `s` of 0
or 1, and every generated id `I` that is not a key of the store, `Create`
answers 200 with `I` and no error; afterwards `List` returns exactly one task
whose `ID` is `I`, that task is `{ID: I, Name: n, Status: s}` and the store
holds it under `I`, `List` returns it together with exactly the tasks it
returned before (so one task more), and every key holds what it held
before. -/
theorem create_stores_task (t : TaskController) (I id : String) (body : Body) (task : Task)
    (hK : KeysAgree t) (hI : I ∉ t.database)
    (hd : ShouldBindJSON (Context.new id body) Task.zero = some task)
    (hn : task.Name ≠ "") (hs : task.Status = 0 ∨ task.Status = 1) :
    (ServeHTTP t I ⟨.postTasks, id, body⟩).2.response = some ⟨200, .id I⟩ ∧
    (ServeHTTP t I ⟨.postTasks, id, body⟩).2.Errors = [] ∧
    (ServeHTTP t I ⟨.postTasks, id, body⟩).1.database.lookup I
      = some { ID := I, Name := task.Name, Status := task.Status } ∧
    (listed (ServeHTTP t I ⟨.postTasks, id, body⟩).1).Perm
      ({ ID := I, Name := task.Name, Status := task.Status } :: listed t) ∧
    (listed (ServeHTTP t I ⟨.postTasks, id, body⟩).1).length = (listed t).length + 1 ∧
    len (ServeHTTP t I ⟨.postTasks, id, body⟩).1.database = len t.database + 1 ∧
    (∀ k v, t.database.lookup k = some v →
      (ServeHTTP t I ⟨.postTasks, id, body⟩).1.database.lookup k = some v) ∧
    (listed (ServeHTTP t I ⟨.postTasks, id, body⟩).1).filter (fun x => decide (x.ID = I))
      = [{ ID := I, Name := task.Name, Status := task.Status }] := by
  have hv : validateTask (Context.new id body) = .ok task :=
    (validateTask_ok_iff _ task).mpr ⟨hd, hn, hs⟩
  rw [ServeHTTP_postTasks_ok t I id body task hv]
  have hl : listed { database := t.database.insert I { task with ID := I } }
      = { ID := I, Name := task.Name, Status := task.Status } :: listed t := by
    simp only [listed_eq, AList.insert_entries_of_neg hI, List.map_cons]
  refine ⟨rfl, rfl, ?_, ?_, ?_, ?_, ?_, ?_⟩
  · exact AList.lookup_insert t.database
  · rw [hl]
  · rw [hl, List.length_cons]
  · exact len_insert_of_not_mem t.database I _ hI
  · intro k v hk
    have hne : k ≠ I := by
      rintro rfl
      have : t.database.lookup k = none := AList.lookup_eq_none.mpr hI
      rw [this] at hk
      cases hk
    simp only
    rw [AList.lookup_insert_ne hne]
    exact hk
  · rw [hl, List.filter_cons_of_pos (by simp)]
    congr 1
    rw [List.filter_eq_nil_iff]
    intro x hx
    rw [listed_eq, List.mem_map] at hx
    obtain ⟨e, he, rfl⟩ := hx
    have hkey : e.1 ∈ t.database.keys := List.mem_keys_of_mem he
    have hid : e.2.ID = e.1 := hK e he
    simp only [decide_eq_true_eq]
    intro h
    exact hI (AList.mem_keys.mpr (by rw [← h, hid]; exact hkey))

/-- C5 on the store reached from the empty one by creating "task1" under the
generated id "T1", with the body `{"name": "x", "status": 0}` and the
generated id "I": afterwards exactly one listed task has the id "I". -/
theorem create_stores_task_witness :
    KeysAgree (ServeHTTP TaskController.init "T1"
      ⟨.postTasks, "", .object none (some "task1") (some 0)⟩).1 ∧
    "I" ∉ (ServeHTTP TaskController.init "T1"
      ⟨.postTasks, "", .object none (some "task1") (some 0)⟩).1.database ∧
    (listed (ServeHTTP (ServeHTTP TaskController.init "T1"
        ⟨.postTasks, "", .object none (some "task1") (some 0)⟩).1 "I"
        ⟨.postTasks, "", .object none (some "x") (some 0)⟩).1).filter
        (fun x => decide (x.ID = "I"))
      = [⟨"I", "x", 0⟩] :=
  ⟨by decide, by decide,
   (create_stores_task (ServeHTTP TaskController.init "T1"
      ⟨.postTasks, "", .object none (some "task1") (some 0)⟩).1 "I" ""
      (.object none (some "x") (some 0)) ⟨"", "x", 0⟩
      (by decide) (by decide) (by decide) (by decide) (by decide)).2.2.2.2.2.2.2⟩

/-! ## C6 and C7: delete -/

/-- Serving `DELETE /tasks/:id` for a key of the store. -/
theorem ServeHTTP_delete_of_mem (t : TaskController) (uuid id : String) (body : Body)
    (h : id ∈ t.database) :
    ServeHTTP t uuid ⟨.deleteTasksId, id, body⟩
      = ({ database := t.database.erase id },
          (Context.new id body).JSON StatusNoContent .null) := by
  obtain ⟨old, hold⟩ := Option.isSome_iff_exists.mp (AList.lookup_isSome.mpr h)
  have hdel : t.Delete (Context.new id body)
      = ({ database := t.database.erase id },
          (Context.new id body).JSON StatusNoContent .null) := by
    simp only [TaskController.Delete, Context.new, hold]
  exact middleware_of_json t.Delete (Context.new id body) _ _ _ rfl hdel

/-- Serving `DELETE /tasks/:id` for an id that is not a key. -/
theorem ServeHTTP_delete_of_not_mem (t : TaskController) (uuid id : String) (body : Body)
    (h : id ∉ t.database) :
    ServeHTTP t uuid ⟨.deleteTasksId, id, body⟩
      = (t, (Context.new id body).JSON StatusNoContent .null) := by
  have hl : t.database.lookup id = none := AList.lookup_eq_none.mpr h
  have hdel : t.Delete (Context.new id body)
      = (t, (Context.new id body).JSON StatusNoContent .null) := by
    simp only [TaskController.Delete, Context.new, hl]
  exact middleware_of_json t.Delete (Context.new id body) _ _ _ rfl hdel

/-- C6: for every store that keeps each task under the key that is its own
`ID` (the way the service keeps its store, so every reachable store is such a
store) and every id that is a key of it, `Delete` answers 204 without an
error; afterwards the id is not a key of the store and no task that `List`
returns has that id, the store holds one task fewer, `List` returns one task
fewer, and every other key holds what it held before. -/
theorem delete_removes_task (t : TaskController) (uuid id : String) (body : Body)
    (hK : KeysAgree t) (h : id ∈ t.database) :
    (ServeHTTP t uuid ⟨.deleteTasksId, id, body⟩).2.response = some ⟨204, .null⟩ ∧
    (ServeHTTP t uuid ⟨.deleteTasksId, id, body⟩).2.Errors = [] ∧
    id ∉ (ServeHTTP t uuid ⟨.deleteTasksId, id, body⟩).1.database ∧
    (ServeHTTP t uuid ⟨.deleteTasksId, id, body⟩).1.database.lookup id = none ∧
    len (ServeHTTP t uuid ⟨.deleteTasksId, id, body⟩).1.database + 1 = len t.database ∧
    (listed (ServeHTTP t uuid ⟨.deleteTasksId, id, body⟩).1).length + 1 = (listed t).length ∧
    (∀ k, k ≠ id → (ServeHTTP t uuid ⟨.deleteTasksId, id, body⟩).1.database.lookup k
      = t.database.lookup k) ∧
    (∀ x ∈ listed (ServeHTTP t uuid ⟨.deleteTasksId, id, body⟩).1, x.ID ≠ id) := by
  rw [ServeHTTP_delete_of_mem t uuid id body h]
  have hlen := len_erase_of_mem t.database id h
  refine ⟨rfl, rfl, ?_, ?_, hlen, ?_, ?_, ?_⟩
  · intro hmem
    exact (AList.mem_erase.mp hmem).1 rfl
  · exact AList.lookup_erase id t.database
  · simp only [listed_eq, List.length_map]
    exact hlen
  · intro k hk
    exact AList.lookup_erase_ne hk
  · intro x hx
    simp only [listed_eq, List.mem_map] at hx
    obtain ⟨e, he, rfl⟩ := hx
    have hsub : e ∈ t.database.entries := (List.kerase_sublist id t.database.entries).subset he
    have hkey : e.1 ∈ (t.database.erase id).keys := List.mem_keys_of_mem he
    have hne : e.1 ≠ id := (AList.mem_erase.mp (AList.mem_keys.mpr hkey)).1
    rw [hK e hsub]
    exact hne

/-- C6 on the three-task store of the test suite, deleting "T1": afterwards
"T1" is not a key, two tasks are left and no listed task has the id "T1". -/
theorem delete_removes_task_witness :
    KeysAgree (storeOf [⟨"T1", "task1", 0⟩, ⟨"T2", "task2", 1⟩, ⟨"T3", "task3", 1⟩]) ∧
    "T1" ∈ (storeOf [⟨"T1", "task1", 0⟩, ⟨"T2", "task2", 1⟩, ⟨"T3", "task3", 1⟩]).database ∧
    "T1" ∉ (ServeHTTP (storeOf [⟨"T1", "task1", 0⟩, ⟨"T2", "task2", 1⟩, ⟨"T3", "task3", 1⟩])
        "U" ⟨.deleteTasksId, "T1", .malformed⟩).1.database ∧
    ∀ x ∈ listed (ServeHTTP (storeOf [⟨"T1", "task1", 0⟩, ⟨"T2", "task2", 1⟩, ⟨"T3", "task3", 1⟩])
        "U" ⟨.deleteTasksId, "T1", .malformed⟩).1, x.ID ≠ "T1" :=
  have h := delete_removes_task
    (storeOf [⟨"T1", "task1", 0⟩, ⟨"T2", "task2", 1⟩, ⟨"T3", "task3", 1⟩]) "U" "T1" .malformed
    (by decide) (by decide)
  ⟨by decide, by decide, h.2.2.1, h.2.2.2.2.2.2.2⟩

/-- C7: `Delete` never fails and is idempotent.  For every store and every
id it answers 204 and attaches no error (so never `ErrTaskNotFound`); when the
id is not a key the controller afterwards equals the controller before (same
size, same contents); and deleting the same id a second time gives the store
the first deletion gave. -/
theorem delete_idempotent (t : TaskController) (uuid uuid2 id : String) (body body2 : Body) :
    (ServeHTTP t uuid ⟨.deleteTasksId, id, body⟩).2.response = some ⟨204, .null⟩ ∧
    (ServeHTTP t uuid ⟨.deleteTasksId, id, body⟩).2.Errors = [] ∧
    (id ∉ t.database →
      (ServeHTTP t uuid ⟨.deleteTasksId, id, body⟩).1 = t ∧
      len (ServeHTTP t uuid ⟨.deleteTasksId, id, body⟩).1.database = len t.database) ∧
    (ServeHTTP (ServeHTTP t uuid ⟨.deleteTasksId, id, body⟩).1 uuid2
        ⟨.deleteTasksId, id, body2⟩).1
      = (ServeHTTP t uuid ⟨.deleteTasksId, id, body⟩).1 ∧
    (ServeHTTP (ServeHTTP t uuid ⟨.deleteTasksId, id, body⟩).1 uuid2
        ⟨.deleteTasksId, id, body2⟩).2.response = some ⟨204, .null⟩ := by
  by_cases h : id ∈ t.database
  · have hgone : id ∉ ({ database := t.database.erase id } : TaskController).database :=
      fun hmem => (AList.mem_erase.mp hmem).1 rfl
    rw [ServeHTTP_delete_of_mem t uuid id body h]
    refine ⟨rfl, rfl, fun hn => absurd h hn, ?_, ?_⟩
    · rw [ServeHTTP_delete_of_not_mem _ uuid2 id body2 hgone]
    · rw [ServeHTTP_delete_of_not_mem _ uuid2 id body2 hgone]
      rfl
  · rw [ServeHTTP_delete_of_not_mem t uuid id body h]
    refine ⟨rfl, rfl, fun _ => ⟨rfl, rfl⟩, ?_, ?_⟩
    · rw [ServeHTTP_delete_of_not_mem t uuid2 id body2 h]
    · rw [ServeHTTP_delete_of_not_mem t uuid2 id body2 h]
      rfl

/-- C7 on the three-task store of the test suite, deleting an id that is not
a key: the store is what it was and still holds three tasks. -/
theorem delete_idempotent_witness :
    (ServeHTTP (storeOf [⟨"T1", "task1", 0⟩, ⟨"T2", "task2", 1⟩, ⟨"T3", "task3", 1⟩]) "U"
        ⟨.deleteTasksId, "T9", .malformed⟩).1
      = storeOf [⟨"T1", "task1", 0⟩, ⟨"T2", "task2", 1⟩, ⟨"T3", "task3", 1⟩] ∧
    len (ServeHTTP (storeOf [⟨"T1", "task1", 0⟩, ⟨"T2", "task2", 1⟩, ⟨"T3", "task3", 1⟩]) "U"
        ⟨.deleteTasksId, "T9", .malformed⟩).1.database
      = len (storeOf [⟨"T1", "task1", 0⟩, ⟨"T2", "task2", 1⟩, ⟨"T3", "task3", 1⟩]).database :=
  (delete_idempotent (storeOf [⟨"T1", "task1", 0⟩, ⟨"T2", "task2", 1⟩, ⟨"T3", "task3", 1⟩])
    "U" "V" "T9" .malformed .malformed).2.2.1 (by decide)

/-! ## C8: the store invariant -/

/-- The store after any request is the store before, or the store before with
one validated task written under some key, or the store before with one key
erased. -/
theorem ServeHTTP_store_cases (t : TaskController) (uuid : String) (req : Request) :
    (ServeHTTP t uuid req).1 = t ∨
    (∃ (k : String) (task : Task), validateTask (Context.new req.id req.body) = .ok task ∧
      (ServeHTTP t uuid req).1 = { database := t.database.insert k { task with ID := k } }) ∨
    (ServeHTTP t uuid req).1 = { database := t.database.erase req.id } := by
  obtain ⟨route, id, body⟩ := req
  cases route with
  | getTasks => exact Or.inl rfl
  | postTasks =>
    cases hv : validateTask (Context.new id body) with
    | error err =>
      left
      have hc := Create_of_error t uuid (Context.new id body) err hv
      rcases validateTask_error_cases _ err hv with rfl | rfl | rfl <;>
        simp only [ServeHTTP, middleware_of_error _ _ t _ rfl hc]
    | ok task =>
      right; left
      exact ⟨uuid, task, rfl, by rw [ServeHTTP_postTasks_ok t uuid id body task hv]⟩
  | putTasksId =>
    by_cases hm : id ∈ t.database
    · cases hv : validateTask (Context.new id body) with
      | error err =>
        left
        have hu : t.Update (Context.new id body) = (t, (Context.new id body).Error err) := by
          rw [Update_of_mem t (Context.new id body) hm, hv]
        rcases validateTask_error_cases _ err hv with rfl | rfl | rfl <;>
          simp only [ServeHTTP, middleware_of_error _ _ t _ rfl hu]
      | ok task =>
        right; left
        have hu : t.Update (Context.new id body)
            = ({ database := t.database.insert id { task with ID := id } },
                (Context.new id body).JSON StatusNoContent .null) := by
          rw [Update_of_mem t (Context.new id body) hm, hv]
          rfl
        exact ⟨id, task, rfl,
          by simp only [ServeHTTP, middleware_of_json _ _ _ _ _ rfl hu]⟩
    · left
      have hu := Update_of_not_mem t (Context.new id body) hm
      simp only [ServeHTTP, middleware_of_error _ _ t _ rfl hu]
  | deleteTasksId =>
    by_cases hm : id ∈ t.database
    · right; right
      rw [ServeHTTP_delete_of_mem t uuid id body hm]
    · left
      rw [ServeHTTP_delete_of_not_mem t uuid id body hm]

/-- Writing a valid task under a key keeps the invariant. -/
theorem StoreValid_insert (t : TaskController) (k : String) (task : Task)
    (ht : StoreValid t) (hn : task.Name ≠ "") (hs : task.Status = 0 ∨ task.Status = 1) :
    StoreValid { database := t.database.insert k task } := by
  intro e he
  simp only [AList.insert_entries, List.mem_cons] at he
  rcases he with rfl | he
  · exact ⟨hn, hs⟩
  · exact ht e ((List.kerase_sublist k t.database.entries).subset he)

/-- Erasing a key keeps the invariant. -/
theorem StoreValid_erase (t : TaskController) (k : String) (ht : StoreValid t) :
    StoreValid { database := t.database.erase k } := by
  intro e he
  exact ht e ((List.kerase_sublist k t.database.entries).subset he)

/-- One request keeps the invariant. -/
theorem StoreValid_step (t : TaskController) (uuid : String) (req : Request)
    (ht : StoreValid t) : StoreValid (ServeHTTP t uuid req).1 := by
  rcases ServeHTTP_store_cases t uuid req with h | ⟨k, task, hv, h⟩ | h
  · rw [h]; exact ht
  · rw [h]
    obtain ⟨_, hn, hs⟩ := (validateTask_ok_iff _ task).mp hv
    exact StoreValid_insert t k _ ht hn hs
  · rw [h]; exact StoreValid_erase t req.id ht

/-- C8: every stored task has a non-empty name and a status of 0
(`Incompleted`) or 1 (`Completed`).  This holds of the empty store `main`
starts with; if it holds before a request (any route, any id, any body, any
generated id, whether the request succeeds or fails) it holds after it; hence
it holds of every reachable controller. -/
theorem store_invariant :
    StoreValid TaskController.init ∧
    (∀ (t : TaskController) (uuid : String) (req : Request),
      StoreValid t → StoreValid (ServeHTTP t uuid req).1) ∧
    (∀ t : TaskController, Reachable t → StoreValid t) := by
  have h0 : StoreValid TaskController.init := by
    intro e he
    cases he
  refine ⟨h0, StoreValid_step, ?_⟩
  intro t hr
  induction hr with
  | init => exact h0
  | step t uuid req _ ih => exact StoreValid_step t uuid req ih

/-- C8 on the controller reached from the empty store by creating a task and
then updating it. -/
theorem store_invariant_witness :
    StoreValid (ServeHTTP (ServeHTTP TaskController.init "T1"
        ⟨.postTasks, "", .object none (some "task1") (some 0)⟩).1 "T2"
        ⟨.putTasksId, "T1", .object none (some "task1-updated") (some 1)⟩).1 :=
  store_invariant.2.2 _
    (Reachable.step _ "T2" ⟨.putTasksId, "T1", .object none (some "task1-updated") (some 1)⟩
      (Reachable.step _ "T1" ⟨.postTasks, "", .object none (some "task1") (some 0)⟩
        Reachable.init))

/-! ## C9: what `validateTask` accepts -/

/-- C9, as amended: for every body that decodes, `validateTask` succeeds if
and only if the decoded name is non-empty and the decoded status is 0 or 1.
A negative status and a status greater than 1 are always rejected, with
`ErrInvalidTaskStatus` when the name is non-empty (with an empty name the
earlier name check reports `ErrEmptyTaskName`).  On success the returned
task has the decoded name and status. -/
theorem validateTask_accepts_iff (c : Context) (task : Task)
    (hd : ShouldBindJSON c Task.zero = some task) :
    ((∃ r, validateTask c = .ok r) ↔
      task.Name ≠ "" ∧ (task.Status = 0 ∨ task.Status = 1)) ∧
    ((task.Status < 0 ∨ 1 < task.Status) → ∀ r, validateTask c ≠ .ok r) ∧
    (task.Name ≠ "" → (task.Status < 0 ∨ 1 < task.Status) →
      validateTask c = .error (.custom ErrInvalidTaskStatus)) ∧
    (task.Name = "" → validateTask c = .error (.custom ErrEmptyTaskName)) ∧
    (∀ r, validateTask c = .ok r → r.Name = task.Name ∧ r.Status = task.Status) := by
  have hout : ∀ x : Int, (x < 0 ∨ 1 < x) → x ≠ 0 ∧ x ≠ 1 := by
    intro x hx
    omega
  have hok : ∀ r, validateTask c = .ok r → r = task := by
    intro r hr
    have h1 := ((validateTask_ok_iff c r).mp hr).1
    rw [hd] at h1
    exact (Option.some.inj h1).symm
  refine ⟨?_, ?_, ?_, ?_, ?_⟩
  · constructor
    · rintro ⟨r, hr⟩
      have := hok r hr
      subst this
      exact ((validateTask_ok_iff c r).mp hr).2
    · intro h
      exact ⟨task, (validateTask_ok_iff c task).mpr ⟨hd, h⟩⟩
  · intro hs r hr
    have := hok r hr
    subst this
    have h2 := ((validateTask_ok_iff c r).mp hr).2.2
    have h3 := hout r.Status hs
    rcases h2 with h2 | h2
    · exact h3.1 h2
    · exact h3.2 h2
  · intro hn hs
    rw [validateTask_eq, hd]
    simp only
    rw [if_neg hn, if_pos (hout task.Status hs)]
  · intro hn
    rw [validateTask_eq, hd]
    simp only
    rw [if_pos hn]
  · intro r hr
    rw [hok r hr]
    exact ⟨rfl, rfl⟩

/-- C9, as amended, at the body `{"name": "task4", "status": 5}` of the test
suite: rejected with `ErrInvalidTaskStatus`. -/
theorem validateTask_accepts_iff_witness :
    validateTask (Context.new "" (.object none (some "task4") (some 5)))
      = .error (.custom ErrInvalidTaskStatus) :=
  (validateTask_accepts_iff (Context.new "" (.object none (some "task4") (some 5)))
    ⟨"", "task4", 5⟩ (by decide)).2.2.1 (by decide) (by decide)

/-- C9 as stated fails at the body `{"name": "", "status": 5}`: it decodes,
its status is greater than 1, and it is rejected with `ErrEmptyTaskName`, not
with `ErrInvalidTaskStatus`. -/
theorem status_five_empty_name :
    ShouldBindJSON (Context.new "" (.object none (some "") (some 5))) Task.zero
      = some ⟨"", "", 5⟩ ∧
    validateTask (Context.new "" (.object none (some "") (some 5)))
      = .error (.custom ErrEmptyTaskName) ∧
    validateTask (Context.new "" (.object none (some "") (some 5)))
      ≠ .error (.custom ErrInvalidTaskStatus) := by
  decide

/-! ## C10: the id of the task `validateTask` returns -/

/-- C10, as amended: for every body on which `validateTask` succeeds, the
returned task's `ID` is the body's own "id" field when the body carries one
and the empty string when it carries none; `validateTask` itself assigns no
id.  Name and status are likewise the body's, with the zero value for a field
the body does not carry. -/
theorem validateTask_id_from_body (c : Context) (task : Task)
    (h : validateTask c = .ok task) :
    ∃ id name status, c.body = .object id name status ∧
      task.ID = id.getD "" ∧ task.Name = name.getD "" ∧ task.Status = status.getD 0 := by
  have hd := ((validateTask_ok_iff c task).mp h).1
  unfold ShouldBindJSON at hd
  cases hb : c.body with
  | malformed =>
    rw [hb] at hd
    cases hd
  | object id name status =>
    rw [hb] at hd
    refine ⟨id, name, status, rfl, ?_⟩
    cases status with
    | none =>
      simp only [Option.some.injEq] at hd
      subst hd
      exact ⟨rfl, rfl, rfl⟩
    | some s =>
      simp only at hd
      split_ifs at hd
      simp only [Option.some.injEq] at hd
      subst hd
      exact ⟨rfl, rfl, rfl⟩

/-- C10, as amended, at a body without an "id" field: the returned id is
empty. -/
theorem validateTask_id_from_body_witness :
    ∃ id name status,
      (Context.new "" (.object none (some "x") (some 1))).body = .object id name status ∧
      (⟨"", "x", 1⟩ : Task).ID = id.getD "" ∧ (⟨"", "x", 1⟩ : Task).Name = name.getD "" ∧
      (⟨"", "x", 1⟩ : Task).Status = status.getD 0 :=
  validateTask_id_from_body (Context.new "" (.object none (some "x") (some 1)))
    ⟨"", "x", 1⟩ (by decide)

/-- C10 as stated fails at the body `{"id": "X", "name": "a", "status": 0}`:
`validateTask` succeeds and the returned task's id is "X", not the empty
string. -/
theorem validateTask_keeps_body_id :
    validateTask (Context.new "" (.object (some "X") (some "a") (some 0)))
      = .ok ⟨"X", "a", 0⟩ ∧
    (⟨"X", "a", 0⟩ : Task).ID ≠ "" := by
  decide

/-! ## C11: list -/

/-- The listed tasks, read key by key: looking every key of the store up, in
the order the store enumerates them, gives the listed tasks. -/
theorem listed_eq_lookup_keys (t : TaskController) :
    (listed t).map some = t.database.keys.map (fun k => t.database.lookup k) := by
  simp only [listed_eq, AList.keys, List.keys, List.map_map]
  apply List.map_congr_left
  intro e he
  have hl : e.2 ∈ t.database.lookup e.1 := AList.mem_lookup_iff.mpr he
  exact (Option.mem_def.mp hl).symm

/-- C11: for every store, every body and every path id, `List` answers 200
with no error attached, whatever the body (it validates nothing), and leaves
the controller as it was.  The tasks it returns are as many as the store has
keys, and they are the tasks stored under the keys, one for each key and
nothing else: an enumeration of the keys without repetition reads them off.
Every returned task is stored under some key and every stored task is
returned. -/
theorem list_returns_store (t : TaskController) (uuid id : String) (body : Body) :
    (ServeHTTP t uuid ⟨.getTasks, id, body⟩).2.response = some ⟨200, .tasks (listed t)⟩ ∧
    (ServeHTTP t uuid ⟨.getTasks, id, body⟩).2.Errors = [] ∧
    (ServeHTTP t uuid ⟨.getTasks, id, body⟩).1 = t ∧
    (listed t).length = len t.database ∧
    (listed t).length = t.database.keys.length ∧
    (∃ ks : List String, ks.Nodup ∧ (∀ k, k ∈ ks ↔ k ∈ t.database) ∧
      (listed t).map some = ks.map (fun k => t.database.lookup k)) ∧
    (∀ task, task ∈ listed t ↔ ∃ k, t.database.lookup k = some task) := by
  refine ⟨rfl, rfl, rfl, ?_, ?_, ?_, ?_⟩
  · simp only [listed_eq, len, List.length_map]
  · simp only [listed_eq, AList.keys, List.keys, List.length_map]
  · exact ⟨t.database.keys, t.database.keys_nodup, fun k => AList.mem_keys.symm,
      listed_eq_lookup_keys t⟩
  · intro task
    rw [listed_eq, List.mem_map]
    constructor
    · rintro ⟨e, he, rfl⟩
      exact ⟨e.1, Option.mem_def.mp (AList.mem_lookup_iff.mpr he)⟩
    · rintro ⟨k, hk⟩
      exact ⟨⟨k, task⟩, AList.mem_lookup_iff.mp (Option.mem_def.mpr hk), rfl⟩

/-! ## C12: from errors to responses -/

/-- The errors attached while a request is served: none, or one of the four
errors of `task.go`, alone. -/
theorem ServeHTTP_errors (t : TaskController) (uuid : String) (req : Request) :
    (ServeHTTP t uuid req).2.Errors = [] ∨
    ∃ e : Error, (e = ErrParseRequestPayload ∨ e = ErrEmptyTaskName ∨
        e = ErrInvalidTaskStatus ∨ e = ErrTaskNotFound) ∧
      (ServeHTTP t uuid req).2.Errors = [.custom e] ∧
      (ServeHTTP t uuid req).2.response = some ⟨e.status, .error e.message⟩ := by
  obtain ⟨route, id, body⟩ := req
  have hval : ∀ err, validateTask (Context.new id body) = .error err →
      ∃ e : Error, (e = ErrParseRequestPayload ∨ e = ErrEmptyTaskName ∨
        e = ErrInvalidTaskStatus ∨ e = ErrTaskNotFound) ∧ err = .custom e := by
    intro err hv
    rcases validateTask_error_cases _ err hv with rfl | rfl | rfl
    · exact ⟨_, Or.inl rfl, rfl⟩
    · exact ⟨_, Or.inr (Or.inl rfl), rfl⟩
    · exact ⟨_, Or.inr (Or.inr (Or.inl rfl)), rfl⟩
  cases route with
  | getTasks => exact Or.inl rfl
  | postTasks =>
    cases hv : validateTask (Context.new id body) with
    | error err =>
      obtain ⟨e, he, rfl⟩ := hval err hv
      have hc := Create_of_error t uuid (Context.new id body) _ hv
      refine Or.inr ⟨e, he, ?_, ?_⟩ <;>
        simp only [ServeHTTP, middleware_of_error _ _ t e rfl hc] <;> rfl
    | ok task =>
      left
      have hc := Create_of_ok t uuid (Context.new id body) task hv
      simp only [ServeHTTP, middleware_of_json _ _ _ _ _ rfl hc]
      rfl
  | putTasksId =>
    by_cases hm : id ∈ t.database
    · cases hv : validateTask (Context.new id body) with
      | error err =>
        obtain ⟨e, he, rfl⟩ := hval err hv
        have hu : t.Update (Context.new id body)
            = (t, (Context.new id body).Error (.custom e)) := by
          rw [Update_of_mem t (Context.new id body) hm, hv]
        refine Or.inr ⟨e, he, ?_, ?_⟩ <;>
          simp only [ServeHTTP, middleware_of_error _ _ t e rfl hu] <;> rfl
      | ok task =>
        left
        have hu : t.Update (Context.new id body)
            = ({ database := t.database.insert id { task with ID := id } },
                (Context.new id body).JSON StatusNoContent .null) := by
          rw [Update_of_mem t (Context.new id body) hm, hv]
          rfl
        simp only [ServeHTTP, middleware_of_json _ _ _ _ _ rfl hu]
        rfl
    · have hu := Update_of_not_mem t (Context.new id body) hm
      refine Or.inr ⟨ErrTaskNotFound, Or.inr (Or.inr (Or.inr rfl)), ?_, ?_⟩ <;>
        simp only [ServeHTTP, middleware_of_error _ _ t _ rfl hu] <;> rfl
  | deleteTasksId =>
    left
    by_cases hm : id ∈ t.database
    · obtain ⟨old, hold⟩ := Option.isSome_iff_exists.mp (AList.lookup_isSome.mpr hm)
      have hdel : t.Delete (Context.new id body)
          = ({ database := t.database.erase id },
              (Context.new id body).JSON StatusNoContent .null) := by
        simp only [TaskController.Delete, Context.new, hold]
      simp only [ServeHTTP, middleware_of_json _ _ _ _ _ rfl hdel]
      rfl
    · have hl : t.database.lookup id = none := AList.lookup_eq_none.mpr hm
      have hdel : t.Delete (Context.new id body)
          = (t, (Context.new id body).JSON StatusNoContent .null) := by
        simp only [TaskController.Delete, Context.new, hl]
      simp only [ServeHTTP, middleware_of_json _ _ _ _ _ rfl hdel]
      rfl

/-- C12: the four errors carry fixed codes and messages (400 "decode request
payload failed", 400 "empty task name", 400 "invalid task status", 404 "task
not found").  After any handler that attached an error and wrote no
response, the middleware answers with the first error's own code (a positive
HTTP status) and its message under "error" when that error is an `*Error`,
and with 500 and the message "unknown error" when it is an error of another
type; when no error is attached it leaves the context as the handler left
it.  Serving any request attaches no error or exactly one of the four
errors, and then the response is that error's code and message. -/
theorem error_translation_table :
    (ErrParseRequestPayload.Code = 400 ∧
      ErrParseRequestPayload.Error = "decode request payload failed") ∧
    (ErrEmptyTaskName.Code = 400 ∧ ErrEmptyTaskName.Error = "empty task name") ∧
    (ErrInvalidTaskStatus.Code = 400 ∧ ErrInvalidTaskStatus.Error = "invalid task status") ∧
    (ErrTaskNotFound.Code = 404 ∧ ErrTaskNotFound.Error = "task not found") ∧
    (∀ (next : Context → TaskController × Context) (c : Context) (t : TaskController)
        (c2 : Context) (e : Error) (rest : List GoError),
      next c = (t, c2) → c2.response = none → 0 < e.status →
      c2.Errors = .custom e :: rest →
      ErrorHandlingMiddleware next c = (t, c2.JSON e.status (.error e.message)) ∧
      (ErrorHandlingMiddleware next c).2.response = some ⟨e.status, .error e.message⟩) ∧
    (∀ (next : Context → TaskController × Context) (c : Context) (t : TaskController)
        (c2 : Context) (text : String) (rest : List GoError),
      next c = (t, c2) → c2.response = none → c2.Errors = .other text :: rest →
      ErrorHandlingMiddleware next c = (t, c2.JSON 500 (.error "unknown error")) ∧
      (ErrorHandlingMiddleware next c).2.response = some ⟨500, .error "unknown error"⟩) ∧
    (∀ (next : Context → TaskController × Context) (c : Context) (t : TaskController)
        (c2 : Context),
      next c = (t, c2) → c2.Errors = [] → ErrorHandlingMiddleware next c = (t, c2)) ∧
    (∀ (t : TaskController) (uuid : String) (req : Request),
      (ServeHTTP t uuid req).2.Errors = [] ∨
      ∃ e : Error, (e = ErrParseRequestPayload ∨ e = ErrEmptyTaskName ∨
          e = ErrInvalidTaskStatus ∨ e = ErrTaskNotFound) ∧
        (ServeHTTP t uuid req).2.Errors = [.custom e] ∧
        (ServeHTTP t uuid req).2.response = some ⟨e.status, .error e.message⟩) := by
  refine ⟨⟨rfl, rfl⟩, ⟨rfl, rfl⟩, ⟨rfl, rfl⟩, ⟨rfl, rfl⟩, ?_, ?_, ?_, ServeHTTP_errors⟩
  · intro next c t c2 e rest hn _ _ he
    have h : ErrorHandlingMiddleware next c = (t, c2.JSON e.status (.error e.message)) := by
      simp only [ErrorHandlingMiddleware, hn, he, Error.Code, Error.Error]
    exact ⟨h, by rw [h]; rfl⟩
  · intro next c t c2 text rest hn _ he
    have h : ErrorHandlingMiddleware next c = (t, c2.JSON 500 (.error "unknown error")) := by
      simp only [ErrorHandlingMiddleware, hn, he, StatusInternalServerError]
    exact ⟨h, by rw [h]; rfl⟩
  · intro next c t c2 hn he
    simp only [ErrorHandlingMiddleware, hn, he]

/-- C12 after a handler that writes no response and attaches an error that is
not an `*Error`: the answer is 500 "unknown error". -/
theorem error_translation_table_witness :
    ((Context.new "" .malformed).Error (.other "boom")).response = none ∧
    (ErrorHandlingMiddleware (fun c => (TaskController.init, c.Error (.other "boom")))
        (Context.new "" .malformed)).2.response
      = some ⟨500, .error "unknown error"⟩ :=
  ⟨rfl,
   (error_translation_table.2.2.2.2.2.1
      (fun c => (TaskController.init, c.Error (.other "boom"))) (Context.new "" .malformed)
      TaskController.init ((Context.new "" .malformed).Error (.other "boom")) "boom" []
      rfl rfl rfl).2⟩

/-! ## Serving `POST /tasks` and `PUT /tasks/:id` -/

/-- The path parameter plays no part in validation. -/
theorem validateTask_param (p q : String) (body : Body) :
    validateTask (Context.new p body) = validateTask (Context.new q body) := rfl

/-- Every error `validateTask` returns is an `*Error`. -/
theorem validateTask_error_custom (c : Context) (err : GoError)
    (h : validateTask c = .error err) : ∃ e : Error, err = .custom e := by
  rcases validateTask_error_cases c err h with rfl | rfl | rfl
  · exact ⟨_, rfl⟩
  · exact ⟨_, rfl⟩
  · exact ⟨_, rfl⟩

/-- Serving `POST /tasks` with a body that fails validation. -/
theorem ServeHTTP_postTasks_error (t : TaskController) (uuid id : String) (body : Body)
    (e : Error) (hv : validateTask (Context.new id body) = .error (.custom e)) :
    ServeHTTP t uuid ⟨.postTasks, id, body⟩
      = (t, ((Context.new id body).Error (.custom e)).JSON e.Code (.error e.Error)) :=
  middleware_of_error (t.Create uuid) (Context.new id body) t e rfl
    (Create_of_error t uuid (Context.new id body) _ hv)

/-- Serving `PUT /tasks/:id` for an id that is not a key. -/
theorem ServeHTTP_putTasksId_not_mem (t : TaskController) (uuid id : String) (body : Body)
    (hm : id ∉ t.database) :
    ServeHTTP t uuid ⟨.putTasksId, id, body⟩
      = (t, ((Context.new id body).Error (.custom ErrTaskNotFound)).JSON
          ErrTaskNotFound.Code (.error ErrTaskNotFound.Error)) :=
  middleware_of_error t.Update (Context.new id body) t ErrTaskNotFound rfl
    (Update_of_not_mem t (Context.new id body) hm)

/-- Serving `PUT /tasks/:id` for a key, with a body that fails validation. -/
theorem ServeHTTP_putTasksId_error (t : TaskController) (uuid id : String) (body : Body)
    (e : Error) (hm : id ∈ t.database)
    (hv : validateTask (Context.new id body) = .error (.custom e)) :
    ServeHTTP t uuid ⟨.putTasksId, id, body⟩
      = (t, ((Context.new id body).Error (.custom e)).JSON e.Code (.error e.Error)) := by
  have hu : t.Update (Context.new id body)
      = (t, (Context.new id body).Error (.custom e)) := by
    rw [Update_of_mem t (Context.new id body) hm, hv]
  exact middleware_of_error t.Update (Context.new id body) t e rfl hu

/-- Serving `PUT /tasks/:id` for a key, with a body that validates. -/
theorem ServeHTTP_putTasksId_ok (t : TaskController) (uuid id : String) (body : Body)
    (task : Task) (hm : id ∈ t.database)
    (hv : validateTask (Context.new id body) = .ok task) :
    ServeHTTP t uuid ⟨.putTasksId, id, body⟩
      = ({ database := t.database.insert id { task with ID := id } },
          (Context.new id body).JSON StatusNoContent .null) := by
  have hu : t.Update (Context.new id body)
      = ({ database := t.database.insert id { task with ID := id } },
          (Context.new id body).JSON StatusNoContent .null) := by
    rw [Update_of_mem t (Context.new id body) hm, hv]
    rfl
  exact middleware_of_json t.Update (Context.new id body) _ _ _ rfl hu

/-- Two bodies that decode to the same name and status fail validation with
the same error or both pass it. -/
theorem validateTask_same_fields (c1 c2 : Context) (d1 d2 : Task)
    (h1 : ShouldBindJSON c1 Task.zero = some d1) (h2 : ShouldBindJSON c2 Task.zero = some d2)
    (hN : d1.Name = d2.Name) (hS : d1.Status = d2.Status) :
    (∃ e : Error, validateTask c1 = .error (.custom e) ∧ validateTask c2 = .error (.custom e)) ∨
    (validateTask c1 = .ok d1 ∧ validateTask c2 = .ok d2) := by
  rw [validateTask_eq, validateTask_eq, h1, h2]
  simp only
  rw [hN, hS]
  by_cases hn : d2.Name = ""
  · exact Or.inl ⟨ErrEmptyTaskName, by rw [if_pos hn], by rw [if_pos hn]⟩
  · by_cases hs : d2.Status ≠ 0 ∧ d2.Status ≠ 1
    · exact Or.inl ⟨ErrInvalidTaskStatus, by rw [if_neg hn, if_pos hs],
        by rw [if_neg hn, if_pos hs]⟩
    · exact Or.inr ⟨by rw [if_neg hn, if_neg hs], by rw [if_neg hn, if_neg hs]⟩

/-! ## C13: the id in the body is ignored -/

/-- C13: for every store, every generated id, every path id, and every two
bodies that decode to the same name and status (whatever "id" field either
carries), `Create` gives the same store, the same response and the same
attached errors for both bodies, and so does `Update`.  When `Create`
succeeds the task it stored carries the generated id, and when `Update`
succeeds the task it stored carries the path id, with the decoded name and
status. -/
theorem body_id_ignored (t : TaskController) (uuid p : String) (b1 b2 : Body) (d1 d2 : Task)
    (h1 : ShouldBindJSON (Context.new p b1) Task.zero = some d1)
    (h2 : ShouldBindJSON (Context.new p b2) Task.zero = some d2)
    (hN : d1.Name = d2.Name) (hS : d1.Status = d2.Status) :
    ((ServeHTTP t uuid ⟨.postTasks, p, b1⟩).1 = (ServeHTTP t uuid ⟨.postTasks, p, b2⟩).1 ∧
      (ServeHTTP t uuid ⟨.postTasks, p, b1⟩).2.response
        = (ServeHTTP t uuid ⟨.postTasks, p, b2⟩).2.response ∧
      (ServeHTTP t uuid ⟨.postTasks, p, b1⟩).2.Errors
        = (ServeHTTP t uuid ⟨.postTasks, p, b2⟩).2.Errors) ∧
    ((ServeHTTP t uuid ⟨.putTasksId, p, b1⟩).1 = (ServeHTTP t uuid ⟨.putTasksId, p, b2⟩).1 ∧
      (ServeHTTP t uuid ⟨.putTasksId, p, b1⟩).2.response
        = (ServeHTTP t uuid ⟨.putTasksId, p, b2⟩).2.response ∧
      (ServeHTTP t uuid ⟨.putTasksId, p, b1⟩).2.Errors
        = (ServeHTTP t uuid ⟨.putTasksId, p, b2⟩).2.Errors) ∧
    ((ServeHTTP t uuid ⟨.postTasks, p, b1⟩).2.Errors = [] →
      (ServeHTTP t uuid ⟨.postTasks, p, b1⟩).1.database.lookup uuid
        = some { ID := uuid, Name := d1.Name, Status := d1.Status }) ∧
    ((ServeHTTP t uuid ⟨.putTasksId, p, b1⟩).2.Errors = [] →
      (ServeHTTP t uuid ⟨.putTasksId, p, b1⟩).1.database.lookup p
        = some { ID := p, Name := d1.Name, Status := d1.Status }) := by
  have hsame : ({ d1 with ID := uuid } : Task) = { d2 with ID := uuid } := by
    rw [hN, hS]
  have hsamep : ({ d1 with ID := p } : Task) = { d2 with ID := p } := by
    rw [hN, hS]
  rcases validateTask_same_fields _ _ d1 d2 h1 h2 hN hS with ⟨e, hv1, hv2⟩ | ⟨hv1, hv2⟩
  · have hc1 := ServeHTTP_postTasks_error t uuid p b1 e hv1
    have hc2 := ServeHTTP_postTasks_error t uuid p b2 e hv2
    refine ⟨by rw [hc1, hc2]; exact ⟨rfl, rfl, rfl⟩, ?_, ?_, ?_⟩
    · by_cases hm : p ∈ t.database
      · rw [ServeHTTP_putTasksId_error t uuid p b1 e hm hv1,
          ServeHTTP_putTasksId_error t uuid p b2 e hm hv2]
        exact ⟨rfl, rfl, rfl⟩
      · rw [ServeHTTP_putTasksId_not_mem t uuid p b1 hm,
          ServeHTTP_putTasksId_not_mem t uuid p b2 hm]
        exact ⟨rfl, rfl, rfl⟩
    · intro he
      rw [hc1] at he
      exact absurd he (by simp [Context.JSON, Context.Error, Context.new])
    · intro he
      by_cases hm : p ∈ t.database
      · rw [ServeHTTP_putTasksId_error t uuid p b1 e hm hv1] at he
        exact absurd he (by simp [Context.JSON, Context.Error, Context.new])
      · rw [ServeHTTP_putTasksId_not_mem t uuid p b1 hm] at he
        exact absurd he (by simp [Context.JSON, Context.Error, Context.new])
  · have hc1 := ServeHTTP_postTasks_ok t uuid p b1 d1 hv1
    have hc2 := ServeHTTP_postTasks_ok t uuid p b2 d2 hv2
    refine ⟨by rw [hc1, hc2, hsame]; exact ⟨rfl, rfl, rfl⟩, ?_, ?_, ?_⟩
    · by_cases hm : p ∈ t.database
      · rw [ServeHTTP_putTasksId_ok t uuid p b1 d1 hm hv1,
          ServeHTTP_putTasksId_ok t uuid p b2 d2 hm hv2, hsamep]
        exact ⟨rfl, rfl, rfl⟩
      · rw [ServeHTTP_putTasksId_not_mem t uuid p b1 hm,
          ServeHTTP_putTasksId_not_mem t uuid p b2 hm]
        exact ⟨rfl, rfl, rfl⟩
    · intro _
      rw [hc1]
      exact AList.lookup_insert t.database
    · intro he
      by_cases hm : p ∈ t.database
      · rw [ServeHTTP_putTasksId_ok t uuid p b1 d1 hm hv1]
        exact AList.lookup_insert t.database
      · rw [ServeHTTP_putTasksId_not_mem t uuid p b1 hm] at he
        exact absurd he (by simp [Context.JSON, Context.Error, Context.new])

/-- C13 on the store holding "A", for the bodies
`{"id": "X", "name": "n", "status": 1}` and `{"id": "Y", "name": "n", "status": 1}`:
`Update` of "A" gives the same store for both, and the stored task's id is "A". -/
theorem body_id_ignored_witness :
    (ServeHTTP (storeOf [⟨"A", "old", 0⟩]) "U"
        ⟨.putTasksId, "A", .object (some "X") (some "n") (some 1)⟩).1
      = (ServeHTTP (storeOf [⟨"A", "old", 0⟩]) "U"
        ⟨.putTasksId, "A", .object (some "Y") (some "n") (some 1)⟩).1 ∧
    (ServeHTTP (storeOf [⟨"A", "old", 0⟩]) "U"
        ⟨.putTasksId, "A", .object (some "X") (some "n") (some 1)⟩).1.database.lookup "A"
      = some ⟨"A", "n", 1⟩ :=
  have h := body_id_ignored (storeOf [⟨"A", "old", 0⟩]) "U" "A"
    (.object (some "X") (some "n") (some 1)) (.object (some "Y") (some "n") (some 1))
    ⟨"X", "n", 1⟩ ⟨"Y", "n", 1⟩ (by decide) (by decide) rfl rfl
  ⟨h.2.1.1, h.2.2.2 (by decide)⟩

/-! ## C14: keys and ids agree -/

/-- Writing a task under the key that is its own id keeps the agreement. -/
theorem KeysAgree_insert (t : TaskController) (k : String) (task : Task)
    (ht : KeysAgree t) (hk : task.ID = k) :
    KeysAgree { database := t.database.insert k task } := by
  intro e he
  simp only [AList.insert_entries, List.mem_cons] at he
  rcases he with rfl | he
  · exact hk
  · exact ht e ((List.kerase_sublist k t.database.entries).subset he)

/-- Erasing a key keeps the agreement. -/
theorem KeysAgree_erase (t : TaskController) (k : String) (ht : KeysAgree t) :
    KeysAgree { database := t.database.erase k } := by
  intro e he
  exact ht e ((List.kerase_sublist k t.database.entries).subset he)

/-- One request keeps the agreement. -/
theorem KeysAgree_step (t : TaskController) (uuid : String) (req : Request)
    (ht : KeysAgree t) : KeysAgree (ServeHTTP t uuid req).1 := by
  rcases ServeHTTP_store_cases t uuid req with h | ⟨k, task, _, h⟩ | h
  · rw [h]; exact ht
  · rw [h]; exact KeysAgree_insert t k _ ht rfl
  · rw [h]; exact KeysAgree_erase t req.id ht

/-- C14: if every task is stored under the key that is its own `ID`, the same
holds after any request (`List`, `Create`, `Update` or `Delete`, with any id,
body and generated id, whether it succeeds or fails).  It holds of the empty
store `main` starts with, so in every reachable controller looking a key `k`
up yields, when it yields a task, a task whose `ID` is `k`. -/
theorem keys_agree_invariant :
    KeysAgree TaskController.init ∧
    (∀ (t : TaskController) (uuid : String) (req : Request),
      KeysAgree t → KeysAgree (ServeHTTP t uuid req).1) ∧
    (∀ t : TaskController, Reachable t → KeysAgree t) ∧
    (∀ t : TaskController, Reachable t →
      ∀ (k : String) (task : Task), t.database.lookup k = some task → task.ID = k) := by
  have h0 : KeysAgree TaskController.init := by
    intro e he
    cases he
  have hr : ∀ t : TaskController, Reachable t → KeysAgree t := by
    intro t hreach
    induction hreach with
    | init => exact h0
    | step t uuid req _ ih => exact KeysAgree_step t uuid req ih
  refine ⟨h0, KeysAgree_step, hr, ?_⟩
  intro t hreach k task hk
  exact hr t hreach ⟨k, task⟩ (AList.mem_lookup_iff.mp (Option.mem_def.mpr hk))

/-- C14 on the controller reached from the empty store by creating a task
under the generated id "T1" from a body that carries the id "X": every task
is stored under its own id. -/
theorem keys_agree_invariant_witness :
    KeysAgree (ServeHTTP TaskController.init "T1"
      ⟨.postTasks, "", .object (some "X") (some "task1") (some 0)⟩).1 :=
  keys_agree_invariant.2.2.1 _
    (Reachable.step _ "T1" ⟨.postTasks, "", .object (some "X") (some "task1") (some 0)⟩
      Reachable.init)

/-! ## C15: create and update validate alike -/

/-- C15: for every store that has the key `A` and every body, `Create` with
the body and `Update` of `A` with the body attach the same errors; when they
fail they fail with the same error, answer with the same code and message,
and leave the store alone; `Create` answers 200 with the generated id exactly
when `Update` answers 204; and when they succeed the task `Create` stored
under the generated id and the task `Update` stored under `A` have the same
name and status. -/
theorem create_update_same_validation (t : TaskController) (uuid uuid2 p A : String)
    (body : Body) (hA : A ∈ t.database) :
    (ServeHTTP t uuid ⟨.postTasks, p, body⟩).2.Errors
      = (ServeHTTP t uuid2 ⟨.putTasksId, A, body⟩).2.Errors ∧
    (∀ e, (ServeHTTP t uuid ⟨.postTasks, p, body⟩).2.Errors = [e] ↔
      (ServeHTTP t uuid2 ⟨.putTasksId, A, body⟩).2.Errors = [e]) ∧
    ((ServeHTTP t uuid ⟨.postTasks, p, body⟩).2.Errors ≠ [] →
      (ServeHTTP t uuid ⟨.postTasks, p, body⟩).2.response
        = (ServeHTTP t uuid2 ⟨.putTasksId, A, body⟩).2.response ∧
      (ServeHTTP t uuid ⟨.postTasks, p, body⟩).1 = t ∧
      (ServeHTTP t uuid2 ⟨.putTasksId, A, body⟩).1 = t) ∧
    ((ServeHTTP t uuid ⟨.postTasks, p, body⟩).2.response = some ⟨200, .id uuid⟩ ↔
      (ServeHTTP t uuid2 ⟨.putTasksId, A, body⟩).2.response = some ⟨204, .null⟩) ∧
    ((ServeHTTP t uuid ⟨.postTasks, p, body⟩).2.Errors = [] →
      ∃ (n : String) (s : TaskStatus),
        (ServeHTTP t uuid ⟨.postTasks, p, body⟩).2.response = some ⟨200, .id uuid⟩ ∧
        (ServeHTTP t uuid2 ⟨.putTasksId, A, body⟩).2.response = some ⟨204, .null⟩ ∧
        (ServeHTTP t uuid ⟨.postTasks, p, body⟩).1.database.lookup uuid
          = some { ID := uuid, Name := n, Status := s } ∧
        (ServeHTTP t uuid2 ⟨.putTasksId, A, body⟩).1.database.lookup A
          = some { ID := A, Name := n, Status := s }) := by
  cases hv : validateTask (Context.new A body) with
  | error err =>
    obtain ⟨e, rfl⟩ := validateTask_error_custom _ err hv
    have hvp : validateTask (Context.new p body) = .error (.custom e) := by
      rw [validateTask_param p A body, hv]
    rw [ServeHTTP_postTasks_error t uuid p body e hvp,
      ServeHTTP_putTasksId_error t uuid2 A body e hA hv]
    refine ⟨rfl, fun _ => Iff.rfl, fun _ => ⟨rfl, rfl, rfl⟩, ?_, ?_⟩
    · simp [Context.JSON]
    · intro he
      exact absurd he (by simp [Context.JSON, Context.Error, Context.new])
  | ok task =>
    have hvp : validateTask (Context.new p body) = .ok task := by
      rw [validateTask_param p A body, hv]
    rw [ServeHTTP_postTasks_ok t uuid p body task hvp,
      ServeHTTP_putTasksId_ok t uuid2 A body task hA hv]
    refine ⟨rfl, fun _ => Iff.rfl, fun he => absurd rfl he, ?_, ?_⟩
    · exact ⟨fun _ => rfl, fun _ => rfl⟩
    · intro _
      exact ⟨task.Name, task.Status, rfl, rfl, AList.lookup_insert t.database,
        AList.lookup_insert t.database⟩

/-- C15 on the store holding "A", with the body `{"name": "", "status": 1}` of
the test suite: `Create` and `Update` both attach `ErrEmptyTaskName`. -/
theorem create_update_same_validation_witness :
    (ServeHTTP (storeOf [⟨"A", "old", 0⟩]) "U"
        ⟨.postTasks, "", .object none (some "") (some 1)⟩).2.Errors
      = [.custom ErrEmptyTaskName] ∧
    (ServeHTTP (storeOf [⟨"A", "old", 0⟩]) "V"
        ⟨.putTasksId, "A", .object none (some "") (some 1)⟩).2.Errors
      = [.custom ErrEmptyTaskName] :=
  have h := (create_update_same_validation (storeOf [⟨"A", "old", 0⟩]) "U" "V" "" "A"
    (.object none (some "") (some 1)) (by decide)).2.1 (.custom ErrEmptyTaskName)
  ⟨by decide, h.mp (by decide)⟩

end Assignment
